import Mathlib

/-
Verification development for the crowlet crawler.

The Go sources are embedded shallowly:
  - durations (time.Duration, int64 nanoseconds) and counts (int) are modelled
    as unbounded Int; Go integer division truncates toward zero, which is
    Int.tdiv; Go integer division by zero panics, which is modelled by Option
    (none = runtime panic);
  - the Go map[int]int status-code histogram is modelled as an association
    list (a Go map never holds a duplicate key, so statements that quantify
    over arbitrary CrawlStats carry a nodupKeys hypothesis where a lookup of
    an input map matters);
  - the map[string][]string of linking URLs is modelled as a function
    String -> List String together with the list of keys in first-insertion
    order (Go map iteration order is unspecified; the model fixes insertion
    order, which is sound for the membership and per-key-value properties
    proved here);
  - the HTTP collaborators (transport, link extractor, URL-host rewriting)
    are oracle parameters: AsyncCrawl and crawlUrls take the result a fetch
    of a URL produces as a function argument;
  - the concurrent worker pool (RunConcurrentGet) is modelled as a labelled
    transition system PoolStep over PoolState; Go select among ready channel
    cases is a nondeterministic choice, so the quit case and the
    client-available case are independent transitions.
-/

/-- CrawlResult is the result from a single crawling (crawler.CrawlResult). -/
structure CrawlResult where
  URL : String
  StatusCode : Int
  Time : Int
  LinkingURLs : List String
deriving DecidableEq, Repr

/-- CrawlStats holds crawling related information: status codes, time and
totals (crawler.CrawlStats).  StatusCodes is the association-list model of
the Go map[int]int. -/
structure CrawlStats where
  Total : Int
  StatusCodes : List (Int × Int)
  Average200Time : Int
  Max200Time : Int
  Non200Urls : List CrawlResult
deriving DecidableEq, Repr

/-- Lookup in the histogram; a missing key reads as 0, exactly like a Go map
(including a nil map). -/
def getCount : List (Int × Int) → Int → Int
  | [], _ => 0
  | p :: rest, k => if p.1 = k then p.2 else getCount rest k

/-- Add v to the entry of key k, creating the entry when absent: the model of
a Go map increment m[k] += v. -/
def bump : List (Int × Int) → Int → Int → List (Int × Int)
  | [], k, v => [(k, v)]
  | p :: rest, k, v => if p.1 = k then (p.1, p.2 + v) :: rest else p :: bump rest k v

/-- Fold a list of entries into a map with bump: the model of the Go loop
for key, value := range src { dst[key] += value }. -/
def mergeMapInto : List (Int × Int) → List (Int × Int) → List (Int × Int)
  | m, [] => m
  | m, p :: rest => mergeMapInto (bump m p.1 p.2) rest

/-- Sum of all values of the histogram. -/
def sumValues : List (Int × Int) → Int
  | [] => 0
  | p :: rest => p.2 + sumValues rest

/-- Total weight a key carries in an entry list (sum over every occurrence of
the key).  On a well-formed map (no duplicate keys) this equals getCount. -/
def sumKey : List (Int × Int) → Int → Int
  | [], _ => 0
  | p :: rest, k => (if p.1 = k then p.2 else 0) + sumKey rest k

/-- A well-formed image of a Go map: no key occurs twice. -/
def nodupKeys (m : List (Int × Int)) : Prop :=
  (m.map Prod.fst).Nodup

instance (m : List (Int × Int)) : Decidable (nodupKeys m) := by
  unfold nodupKeys
  infer_instance

/-- The merged histogram of MergeCrawlStats: a fresh map, then both input
maps folded in with per-key addition. -/
def mergedCodes (statsA statsB : CrawlStats) : List (Int × Int) :=
  mergeMapInto (mergeMapInto [] statsA.StatusCodes) statsB.StatusCodes

/-- The branchless Go maximum: if a > b then a else b. -/
def maxDur (a b : Int) : Int :=
  if a > b then a else b

/-- MergeCrawlStats merges two sets of crawling statistics together
(crawler.MergeCrawlStats).  The Average200Time branch runs whenever either
input average is nonzero; inside it Go divides by the merged 200-count, and a
Go integer division by zero panics, which the model returns as none. -/
def MergeCrawlStats (statsA statsB : CrawlStats) : Option CrawlStats :=
  let codes := mergedCodes statsA statsB
  let maxT := maxDur statsA.Max200Time statsB.Max200Time
  let non200 := statsA.Non200Urls ++ statsB.Non200Urls
  if statsA.Average200Time ≠ 0 ∨ statsB.Average200Time ≠ 0 then
    let total200ns := statsA.Average200Time * getCount statsA.StatusCodes 200 +
      statsB.Average200Time * getCount statsB.StatusCodes 200
    if getCount codes 200 = 0 then
      none
    else
      some ⟨statsA.Total + statsB.Total, codes,
        Int.tdiv total200ns (getCount codes 200), maxT, non200⟩
  else
    some ⟨statsA.Total + statsB.Total, codes, 0, maxT, non200⟩

/-- Link types extracted from a page (crawler.Hyperlink / crawler.Image). -/
inductive LinkKind where
  | hyperlink
  | image
deriving DecidableEq, Repr

/-- Link is one link extracted from a fetched page (crawler.Link). -/
structure LinkM where
  TargetURL : String
  kind : LinkKind
  IsExternal : Bool
deriving DecidableEq, Repr

/-- HTTPResponse holds information from a GET to one URL (crawler.HTTPResponse).
hasResult models Result != nil, and serverTime models the elapsed duration
Result.Total(EndTime) in nanoseconds.  hasErr models Err != nil. -/
structure HTTPResponseM where
  URL : String
  StatusCode : Int
  hasResult : Bool
  serverTime : Int
  hasErr : Bool
  Links : List LinkM
deriving DecidableEq, Repr

/-- Accumulate one response into the crawl statistics
(crawler.populateCrawlStats).  The Go function mutates stats and the external
200-latency sum through pointers; the model passes both explicitly. -/
def populateCrawlStats (result : HTTPResponseM) (stats : CrawlStats) (total200Time : Int) :
    CrawlStats × Int :=
  let serverTime := if result.hasResult then result.serverTime else 0
  let stats1 : CrawlStats :=
    { stats with
      Total := stats.Total + 1,
      StatusCodes := bump stats.StatusCodes result.StatusCode 1 }
  if result.StatusCode = 200 then
    ({ stats1 with
        Max200Time := if serverTime > stats1.Max200Time then serverTime else stats1.Max200Time },
      total200Time + serverTime)
  else
    ({ stats1 with
        Non200Urls := stats1.Non200Urls ++ [⟨result.URL, result.StatusCode, serverTime, []⟩] },
      total200Time)

/-- The zero-value statistics crawlUrls starts from: Total 0, a fresh empty
histogram, zero durations, no reports. -/
def initCrawlStats : CrawlStats :=
  ⟨0, [], 0, 0, []⟩

/-- Fold a stream of responses through populateCrawlStats starting from the
fresh accumulator, returning the statistics and the external 200-latency sum:
the body of the result loop of crawler.crawlUrls. -/
def foldStats (rs : List HTTPResponseM) : CrawlStats × Int :=
  rs.foldl (fun p r => populateCrawlStats r p.1 p.2) (initCrawlStats, 0)

/-- Store a response under its URL key, replacing an existing entry: the model
of the Go map write results[result.URL] = result.  The value list is kept in
first-insertion order. -/
def insertResult (rs : List HTTPResponseM) (r : HTTPResponseM) : List HTTPResponseM :=
  if rs.any (fun x => x.URL == r.URL) then
    rs.map (fun x => if x.URL == r.URL then r else x)
  else
    rs ++ [r]

/-- The result map of a crawl as its list of values. -/
def buildResults (rs : List HTTPResponseM) : List HTTPResponseM :=
  rs.foldl insertResult []

/-- crawlUrls fetches every URL and folds each result into fresh statistics
(crawler.crawlUrls).  The fetch oracle takes the effective ParseLinks flag
and the URL; the concurrent result channel delivers one response per input
URL, modelled in dispatch order (the statistics folded here are insensitive
to completion order except for the order of Non200Urls). -/
def crawlUrls (fetch : Bool → String → HTTPResponseM) (parseLinks : Bool)
    (urls : List String) : List HTTPResponseM × CrawlStats × Int :=
  let rs := urls.map (fetch parseLinks)
  (buildResults rs, foldStats rs)

/-- CrawlPageLinksConfig holds the crawling policy for links
(crawler.CrawlPageLinksConfig). -/
structure CrawlPageLinksConfig where
  CrawlExternalLinks : Bool
  CrawlHyperlinks : Bool
  CrawlImages : Bool
deriving DecidableEq, Repr

/-- CrawlConfig holds crawling configuration (crawler.CrawlConfig).  The HTTP
transport settings and the getter live in the fetch oracle; Throttle only
parameterizes the worker pool, whose concurrency the sequential crawl model
abstracts (PoolState covers it). -/
structure CrawlConfigM where
  Throttle : Int
  Host : String
  Links : CrawlPageLinksConfig
deriving DecidableEq, Repr

/-- The filter of crawlPageLinks: a link is skipped when it is external and
external links are off, or a hyperlink when hyperlinks are off, or an image
when images are off. -/
def linkSkipped (cfg : CrawlPageLinksConfig) (l : LinkM) : Bool :=
  (!cfg.CrawlExternalLinks && l.IsExternal) ||
    (!cfg.CrawlHyperlinks && (l.kind == LinkKind.hyperlink)) ||
    (!cfg.CrawlImages && (l.kind == LinkKind.image))

/-- Add the surviving links of one source page into the linked-URL set: the
inner loop of crawlPageLinks.  The accumulator is the map
target -> linking sources (a function) together with the key list in
first-insertion order; keys is the key set of the phase-1 result map. -/
def addLinks (keys : List String) (cfg : CrawlPageLinksConfig) (src : String)
    (st : (String → List String) × List String) :
    List LinkM → (String → List String) × List String
  | [] => st
  | l :: ls =>
    if linkSkipped cfg l || keys.contains l.TargetURL then
      addLinks keys cfg src st ls
    else
      addLinks keys cfg src
        ((fun t => if t = l.TargetURL then st.1 t ++ [src] else st.1 t),
          if st.1 l.TargetURL = [] then st.2 ++ [l.TargetURL] else st.2) ls

/-- Outer loop of crawlPageLinks over the phase-1 results. -/
def buildFrontierAux (keys : List String) (cfg : CrawlPageLinksConfig)
    (st : (String → List String) × List String) :
    List HTTPResponseM → (String → List String) × List String
  | [] => st
  | r :: rs => buildFrontierAux keys cfg (addLinks keys cfg r.URL st r.Links) rs

/-- The linked-URL set derived from the phase-1 result map: for every link of
every result, skipped links and links whose target is already a key of the
phase-1 result map are dropped; surviving targets map to the list of source
URLs that referenced them, and the second component is the frontier URL
list. -/
def buildFrontier (results : List HTTPResponseM) (cfg : CrawlPageLinksConfig) :
    (String → List String) × List String :=
  buildFrontierAux (results.map (fun r => r.URL)) cfg ((fun _ => []), []) results

/-- Whether one link contributes target t to the frontier: it survives the
filter, its target is not a phase-1 key, and its target is t. -/
def linkMatches (keys : List String) (cfg : CrawlPageLinksConfig) (t : String)
    (l : LinkM) : Bool :=
  !linkSkipped cfg l && !keys.contains l.TargetURL && (l.TargetURL == t)

/-- The sources one result contributes for target t (one copy of the source
URL per matching link, as the Go append does). -/
def refsIn (keys : List String) (cfg : CrawlPageLinksConfig) (t : String)
    (r : HTTPResponseM) : List String :=
  (r.Links.filter (linkMatches keys cfg t)).map (fun _ => r.URL)

/-- All sources referencing target t across the phase-1 results, in iteration
order. -/
def refs (results : List HTTPResponseM) (keys : List String)
    (cfg : CrawlPageLinksConfig) (t : String) : List String :=
  (results.map (refsIn keys cfg t)).flatten

/-- crawlPageLinks derives the frontier from the phase-1 result map, crawls
it with link extraction forced off, and rewrites every phase-2 non-200
report with the list of URLs that linked to it (crawler.crawlPageLinks). -/
def crawlPageLinks (fetch : Bool → String → HTTPResponseM)
    (sourceResults : List HTTPResponseM) (config : CrawlConfigM) :
    List HTTPResponseM × CrawlStats × Int :=
  let fr := buildFrontier sourceResults config.Links
  let crawled := crawlUrls fetch false fr.2
  let linksStats := crawled.2.1
  let linksStats2 :=
    { linksStats with
      Non200Urls := linksStats.Non200Urls.map (fun r => { r with LinkingURLs := fr.1 r.URL }) }
  (crawled.1, linksStats2, crawled.2.2)

/-- The crawl-level outcome errors of AsyncCrawl. -/
inductive CrawlError where
  | noURLCrawled
  | non200Status
deriving DecidableEq, Repr

/-- Whether any link-following flag is set: the value AsyncCrawl assigns to
config.HTTP.ParseLinks. -/
def anyLinkFlag (c : CrawlPageLinksConfig) : Bool :=
  c.CrawlExternalLinks || c.CrawlHyperlinks || c.CrawlImages

/-- The seed URL list after the optional host override, with the rewriting
collaborator (RewriteURLHost, outside this package core) as an oracle. -/
def rewrittenUrls (rewrite : List String → String → List String)
    (urls0 : List String) (config : CrawlConfigM) : List String :=
  if config.Host ≠ "" then rewrite urls0 config.Host else urls0

/-- Finalization of AsyncCrawl: set the overall Average200Time from the
combined external 200-latency sum when the merged 200-count is positive,
then classify the outcome. -/
def finalizeCrawl (p : CrawlStats × Int) : CrawlStats × Option CrawlError :=
  let total200 := getCount p.1.StatusCodes 200
  let stats :=
    if 0 < total200 then { p.1 with Average200Time := Int.tdiv p.2 total200 } else p.1
  let err :=
    if stats.Total = 0 then some CrawlError.noURLCrawled
    else if stats.Total ≠ getCount stats.StatusCodes 200 then some CrawlError.non200Status
    else none
  (stats, err)

/-- The statistics and combined 200-latency sum AsyncCrawl holds right before
finalization: phase 1, then, when link following is on, phase 2 merged in.
none models the Go panic a MergeCrawlStats division by zero would raise. -/
def combinedPre (fetch : Bool → String → HTTPResponseM)
    (rewrite : List String → String → List String)
    (urls0 : List String) (config : CrawlConfigM) : Option (CrawlStats × Int) :=
  let urls := rewrittenUrls rewrite urls0 config
  let pl := anyLinkFlag config.Links
  let phase1 := crawlUrls fetch pl urls
  if pl then
    let phase2 := crawlPageLinks fetch phase1.1 config
    (MergeCrawlStats phase1.2.1 phase2.2.1).map (fun s => (s, phase1.2.2 + phase2.2.2))
  else
    some (phase1.2.1, phase1.2.2)

/-- AsyncCrawl crawls the seed URLs, optionally one extra hop of links,
merges the statistics, finalizes the average and classifies the outcome
(crawler.AsyncCrawl).  The statistics are returned alongside the outcome
error in the same pair. -/
def AsyncCrawl (fetch : Bool → String → HTTPResponseM)
    (rewrite : List String → String → List String)
    (urls0 : List String) (config : CrawlConfigM) :
    Option (CrawlStats × Option CrawlError) :=
  (combinedPre fetch rewrite urls0 config).map finalizeCrawl

/-- Outcome of client.Do in HTTPGet: respStatus is the status code of the
received response (none when the Response is nil), doErr models a non-nil
transport error. -/
structure DoOutcome where
  respStatus : Option Int
  doErr : Bool
deriving DecidableEq, Repr

/-- HTTPGet issues one GET and always returns a response value, never raising
(crawler.HTTPGet).  createErr models a createRequest failure, serverTime the
httpstat total, baseURLOk the url.Parse of the base URL, and extracted the
ExtractLinks outcome (none = extraction error, which is only logged). -/
def HTTPGet (urlStr : String) (createErr : Bool) (outcome : DoOutcome)
    (serverTime : Int) (parseLinks : Bool) (baseURLOk : Bool)
    (extracted : Option (List LinkM)) : HTTPResponseM :=
  if createErr then
    { URL := urlStr, StatusCode := 0, hasResult := false, serverTime := 0,
      hasErr := true, Links := [] }
  else
    let status := match outcome.respStatus with
      | none => 0
      | some c => c
    if outcome.doErr then
      { URL := urlStr, StatusCode := status, hasResult := true,
        serverTime := serverTime, hasErr := true, Links := [] }
    else if parseLinks then
      if baseURLOk then
        match extracted with
        | none =>
          { URL := urlStr, StatusCode := status, hasResult := true,
            serverTime := serverTime, hasErr := false, Links := [] }
        | some ls =>
          { URL := urlStr, StatusCode := status, hasResult := true,
            serverTime := serverTime, hasErr := false, Links := ls }
      else
        { URL := urlStr, StatusCode := status, hasResult := true,
          serverTime := serverTime, hasErr := false, Links := [] }
    else
      { URL := urlStr, StatusCode := status, hasResult := true,
        serverTime := serverTime, hasErr := false, Links := [] }

/-- State of RunConcurrentGet: the URLs the dispatch loop has not yet
consumed, the clients sitting in the clientsReady channel (by id), the
in-flight fetches (client id, url), the results already emitted on
resultChan, the URLs dispatched so far, whether the quit channel has fired,
whether the dispatch loop has exited, and whether resultChan is closed. -/
structure PoolState where
  pending : List String
  available : List Nat
  inFlight : List (Nat × String)
  emitted : List String
  dispatched : List String
  quitFired : Bool
  loopDone : Bool
  closed : Bool
deriving DecidableEq, Repr

/-- Initial state of RunConcurrentGet: maxConcurrent fresh clients in the
clientsReady channel and every URL pending. -/
def initPool (maxConcurrent : Nat) (urls : List String) : PoolState :=
  ⟨urls, List.range maxConcurrent, [], [], [], false, false, false⟩

/-- One transition of RunConcurrentGet.  dispatch and observeQuit model the
two cases of the Go select: when both the quit channel and a client are
ready, Go picks one nondeterministically, so dispatch carries no
requirement on quitFired.  complete models a worker goroutine sending its
result and the deferred client return and wg.Done; close models the deferred
wg.Wait followed by close(resultChan). -/
inductive PoolStep : PoolState → PoolState → Prop where
  | fireQuit (s : PoolState) :
      PoolStep s { s with quitFired := true }
  | dispatch (s : PoolState) (u : String) (rest : List String) (c : Nat) (cs : List Nat) :
      s.loopDone = false → s.pending = u :: rest → s.available = c :: cs →
      PoolStep s
        { s with
            pending := rest
            available := cs
            inFlight := (c, u) :: s.inFlight
            dispatched := s.dispatched ++ [u] }
  | observeQuit (s : PoolState) :
      s.loopDone = false → s.quitFired = true →
      PoolStep s { s with loopDone := true }
  | exhaust (s : PoolState) :
      s.loopDone = false → s.pending = [] →
      PoolStep s { s with loopDone := true }
  | complete (s : PoolState) (c : Nat) (u : String) (l1 l2 : List (Nat × String)) :
      s.inFlight = l1 ++ (c, u) :: l2 →
      PoolStep s
        { s with
            inFlight := l1 ++ l2
            available := s.available ++ [c]
            emitted := s.emitted ++ [u] }
  | close (s : PoolState) :
      s.loopDone = true → s.inFlight = [] → s.closed = false →
      PoolStep s { s with closed := true }

/-- States RunConcurrentGet can reach from its initial state. -/
def PoolReachable (maxConcurrent : Nat) (urls : List String) (s : PoolState) : Prop :=
  Relation.ReflTransGen PoolStep (initPool maxConcurrent urls) s

/-- bump adds v to the count read back at the bumped key. -/
theorem getCount_bump_self (m : List (Int × Int)) (k v : Int) :
    getCount (bump m k v) k = getCount m k + v := by
  induction m with
  | nil => simp [bump, getCount]
  | cons p rest ih =>
    by_cases h : p.1 = k
    · simp [bump, getCount, h]
    · simp [bump, getCount, h, ih]

/-- bump leaves every other key unchanged. -/
theorem getCount_bump_ne (m : List (Int × Int)) (k v k' : Int) (h : k' ≠ k) :
    getCount (bump m k v) k' = getCount m k' := by
  induction m with
  | nil => simp [bump, getCount, Ne.symm h]
  | cons p rest ih =>
    by_cases hp : p.1 = k
    · simp [bump, getCount, hp, h, Ne.symm h]
    · simp [bump, getCount, hp, ih]

/-- bump increases the value sum by exactly the bumped amount. -/
theorem sumValues_bump (m : List (Int × Int)) (k v : Int) :
    sumValues (bump m k v) = sumValues m + v := by
  induction m with
  | nil => simp [bump, sumValues]
  | cons p rest ih =>
    by_cases h : p.1 = k
    · simp [bump, sumValues, h]
      ring
    · simp [bump, sumValues, h, ih]
      ring

/-- Folding an entry list into a map adds, at every key, the total weight the
entry list carries at that key. -/
theorem getCount_mergeMapInto (es m : List (Int × Int)) (k : Int) :
    getCount (mergeMapInto m es) k = getCount m k + sumKey es k := by
  induction es generalizing m with
  | nil => simp [mergeMapInto, sumKey]
  | cons p rest ih =>
    by_cases h : p.1 = k
    · simp [mergeMapInto, sumKey, ih, getCount_bump_self, h]
      ring
    · have hk : k ≠ p.1 := fun he => h he.symm
      simp [mergeMapInto, sumKey, ih, getCount_bump_ne _ _ _ _ hk, h]

/-- Folding an entry list into a map adds its value sum to the value sum. -/
theorem sumValues_mergeMapInto (es m : List (Int × Int)) :
    sumValues (mergeMapInto m es) = sumValues m + sumValues es := by
  induction es generalizing m with
  | nil => simp [mergeMapInto, sumValues]
  | cons p rest ih =>
    simp [mergeMapInto, sumValues, ih, sumValues_bump]
    ring

/-- A key that never occurs carries no weight. -/
theorem sumKey_eq_zero_of_not_mem (es : List (Int × Int)) (k : Int)
    (h : k ∉ es.map Prod.fst) : sumKey es k = 0 := by
  induction es with
  | nil => rfl
  | cons p rest ih =>
    simp only [List.map_cons, List.mem_cons] at h
    push_neg at h
    have hp : p.1 ≠ k := fun he => h.1 he.symm
    simp [sumKey, hp, ih h.2]

/-- On a well-formed map the weight of a key is exactly its stored count. -/
theorem sumKey_eq_getCount (es : List (Int × Int)) (k : Int) (h : nodupKeys es) :
    sumKey es k = getCount es k := by
  induction es with
  | nil => rfl
  | cons p rest ih =>
    unfold nodupKeys at h
    simp only [List.map_cons, List.nodup_cons] at h
    by_cases hp : p.1 = k
    · have hrest : sumKey rest k = 0 := by
        apply sumKey_eq_zero_of_not_mem
        rw [← hp]
        exact h.1
      simp [sumKey, getCount, hp, hrest]
    · simp [sumKey, getCount, hp, ih h.2]

/-- The merged histogram reads, at every key, the sum of the weights the two
input histograms carry there. -/
theorem getCount_mergedCodes (a b : CrawlStats) (k : Int) :
    getCount (mergedCodes a b) k = sumKey a.StatusCodes k + sumKey b.StatusCodes k := by
  unfold mergedCodes
  rw [getCount_mergeMapInto, getCount_mergeMapInto]
  simp [getCount]

/-- The merged histogram value sum is the sum of the input value sums. -/
theorem sumValues_mergedCodes (a b : CrawlStats) :
    sumValues (mergedCodes a b) = sumValues a.StatusCodes + sumValues b.StatusCodes := by
  unfold mergedCodes
  rw [sumValues_mergeMapInto, sumValues_mergeMapInto]
  simp [sumValues]

/-- The Go two-branch maximum is symmetric. -/
theorem maxDur_comm (a b : Int) : maxDur a b = maxDur b a := by
  unfold maxDur
  rcases lt_trichotomy a b with h | h | h
  · simp [h, not_lt.mpr (le_of_lt h)]
  · simp [h]
  · simp [h, not_lt.mpr (le_of_lt h)]

/-- Against a zero right operand the Go maximum returns a nonnegative left
operand unchanged. -/
theorem maxDur_zero_right (a : Int) (h : 0 ≤ a) : maxDur a 0 = a := by
  unfold maxDur
  rcases lt_or_eq_of_le h with h1 | h1
  · simp [h1]
  · simp [← h1]

/-- When both input averages are zero the merge branch is skipped: no
division happens and the merged average is the zero duration. -/
theorem MergeCrawlStats_avg_zero (a b : CrawlStats)
    (ha : a.Average200Time = 0) (hb : b.Average200Time = 0) :
    MergeCrawlStats a b =
      some ⟨a.Total + b.Total, mergedCodes a b, 0,
        maxDur a.Max200Time b.Max200Time, a.Non200Urls ++ b.Non200Urls⟩ := by
  simp [MergeCrawlStats, ha, hb]

/-- populateCrawlStats never writes the Average200Time field. -/
theorem populate_avg (r : HTTPResponseM) (s : CrawlStats) (t : Int) :
    ((populateCrawlStats r s t).1).Average200Time = s.Average200Time := by
  unfold populateCrawlStats
  by_cases h : r.StatusCode = 200 <;> simp [h]

/-- populateCrawlStats preserves the total-equals-histogram-sum invariant. -/
theorem populate_inv (r : HTTPResponseM) (s : CrawlStats) (t : Int)
    (h : s.Total = sumValues s.StatusCodes) :
    ((populateCrawlStats r s t).1).Total = sumValues ((populateCrawlStats r s t).1).StatusCodes := by
  unfold populateCrawlStats
  by_cases hc : r.StatusCode = 200 <;> simp [hc, sumValues_bump, h]

/-- Folding any response stream from any starting accumulator never touches
Average200Time. -/
theorem foldl_populate_avg (rs : List HTTPResponseM) (s : CrawlStats) (t : Int) :
    ((rs.foldl (fun p r => populateCrawlStats r p.1 p.2) (s, t)).1).Average200Time =
      s.Average200Time := by
  induction rs generalizing s t with
  | nil => rfl
  | cons r rest ih =>
    simp only [List.foldl_cons]
    rw [ih]
    exact populate_avg r s t

/-- The per-phase accumulator of crawlUrls keeps Average200Time at zero. -/
theorem foldStats_avg (rs : List HTTPResponseM) :
    (foldStats rs).1.Average200Time = 0 := by
  unfold foldStats
  rw [foldl_populate_avg]
  rfl

/-- Folding any response stream preserves the total-equals-histogram-sum
invariant from any starting accumulator that satisfies it. -/
theorem foldl_populate_inv (rs : List HTTPResponseM) (s : CrawlStats) (t : Int)
    (h : s.Total = sumValues s.StatusCodes) :
    ((rs.foldl (fun p r => populateCrawlStats r p.1 p.2) (s, t)).1).Total =
      sumValues ((rs.foldl (fun p r => populateCrawlStats r p.1 p.2) (s, t)).1).StatusCodes := by
  induction rs generalizing s t with
  | nil => exact h
  | cons r rest ih =>
    simp only [List.foldl_cons]
    exact ih _ _ (populate_inv r s t h)

/-- Statistics accumulated by crawlUrls satisfy the invariant. -/
theorem foldStats_inv (rs : List HTTPResponseM) :
    (foldStats rs).1.Total = sumValues (foldStats rs).1.StatusCodes := by
  unfold foldStats
  exact foldl_populate_inv rs initCrawlStats 0 rfl

/-- The linked-URL map after one source page: the previous sources plus one
copy of the source URL per link of the page that matches the target. -/
theorem addLinks_map (keys : List String) (cfg : CrawlPageLinksConfig) (src : String)
    (ls : List LinkM) (st : (String → List String) × List String) (t : String) :
    (addLinks keys cfg src st ls).1 t =
      st.1 t ++ (ls.filter (linkMatches keys cfg t)).map (fun _ => src) := by
  induction ls generalizing st with
  | nil => simp [addLinks]
  | cons l rest ih =>
    by_cases hskip : (linkSkipped cfg l || keys.contains l.TargetURL) = true
    · have hm : linkMatches keys cfg t l = false := by
        unfold linkMatches
        rcases Bool.or_eq_true _ _ |>.mp hskip with h | h
        · rw [h]
          rfl
        · rw [h]
          simp
      rw [addLinks, if_pos hskip, ih]
      rw [List.filter_cons_of_neg (by simp [hm])]
    · have hor := Bool.of_not_eq_true hskip
      have hsk : linkSkipped cfg l = false := (Bool.or_eq_false_iff.mp hor).1
      have hct : keys.contains l.TargetURL = false := (Bool.or_eq_false_iff.mp hor).2
      rw [addLinks, if_neg hskip, ih]
      by_cases heq : l.TargetURL = t
      · have hnm : t ∉ keys := by
          rw [← heq]
          simpa using hct
        have hm : linkMatches keys cfg t l = true := by
          simp [linkMatches, hsk, hct, heq, hnm]
        rw [List.filter_cons_of_pos (by simp [hm])]
        simp [heq, List.append_assoc]
      · have hm : linkMatches keys cfg t l = false := by
          simp [linkMatches, hsk, hct, heq]
        have hne : ¬ t = l.TargetURL := fun h => heq h.symm
        rw [List.filter_cons_of_neg (by simp [hm])]
        simp [hne]

/-- The linked-URL map after a list of source pages: the previous sources
plus every referencing source collected from those pages. -/
theorem buildFrontierAux_map (keys : List String) (cfg : CrawlPageLinksConfig)
    (rs : List HTTPResponseM) (st : (String → List String) × List String) (t : String) :
    (buildFrontierAux keys cfg st rs).1 t = st.1 t ++ refs rs keys cfg t := by
  induction rs generalizing st with
  | nil => simp [buildFrontierAux, refs]
  | cons r rest ih =>
    simp only [buildFrontierAux]
    rw [ih, addLinks_map]
    simp [refs, refsIn, List.append_assoc]

/-- The frontier map of crawlPageLinks sends every target to exactly the
sources that referenced it through a surviving, not-already-known link. -/
theorem buildFrontier_map (results : List HTTPResponseM) (cfg : CrawlPageLinksConfig)
    (t : String) :
    (buildFrontier results cfg).1 t =
      refs results (results.map (fun r => r.URL)) cfg t := by
  unfold buildFrontier
  rw [buildFrontierAux_map]
  simp

/-- The key list tracked by addLinks stays in sync with the map: a target is
listed exactly when its source list is nonempty. -/
theorem addLinks_memTrack (keys : List String) (cfg : CrawlPageLinksConfig) (src : String)
    (ls : List LinkM) (st : (String → List String) × List String)
    (hinv : ∀ x, x ∈ st.2 ↔ st.1 x ≠ []) :
    ∀ x, x ∈ (addLinks keys cfg src st ls).2 ↔ (addLinks keys cfg src st ls).1 x ≠ [] := by
  induction ls generalizing st with
  | nil => exact hinv
  | cons l rest ih =>
    by_cases hskip : (linkSkipped cfg l || keys.contains l.TargetURL) = true
    · rw [addLinks, if_pos hskip]
      exact ih st hinv
    · rw [addLinks, if_neg hskip]
      apply ih
      intro x
      by_cases hx : x = l.TargetURL
      · constructor
        · intro _
          simp [hx]
        · intro _
          rw [hx]
          by_cases he : st.1 l.TargetURL = []
          · simp [he]
          · have hmem := (hinv l.TargetURL).mpr he
            simp [he, hmem]
      · by_cases he : st.1 l.TargetURL = []
        · simp [he, hx, List.mem_append, hinv x]
        · simp [he, hx, hinv x]

/-- The synchronization of the key list and the map survives the outer loop
over the phase-1 results. -/
theorem buildFrontierAux_memTrack (keys : List String) (cfg : CrawlPageLinksConfig)
    (rs : List HTTPResponseM) (st : (String → List String) × List String)
    (hinv : ∀ x, x ∈ st.2 ↔ st.1 x ≠ []) :
    ∀ x, x ∈ (buildFrontierAux keys cfg st rs).2 ↔ (buildFrontierAux keys cfg st rs).1 x ≠ [] := by
  induction rs generalizing st with
  | nil => exact hinv
  | cons r rest ih =>
    simp only [buildFrontierAux]
    exact ih _ (addLinks_memTrack keys cfg r.URL r.Links st hinv)

/-- A URL is in the frontier list exactly when some source referenced it. -/
theorem buildFrontier_mem (results : List HTTPResponseM) (cfg : CrawlPageLinksConfig)
    (t : String) :
    t ∈ (buildFrontier results cfg).2 ↔ (buildFrontier results cfg).1 t ≠ [] := by
  unfold buildFrontier
  exact buildFrontierAux_memTrack _ cfg results _ (by simp) t

/-- Invariant of RunConcurrentGet: the clients in the ready channel together
with the clients held by in-flight fetches are exactly the maxConcurrent
clients created at start; the emitted results together with the in-flight
fetches account exactly for the dispatched URLs; and a closed result channel
means the dispatch loop exited and no fetch is in flight. -/
def PoolInv (maxConcurrent : Nat) (s : PoolState) : Prop :=
  (s.available ++ s.inFlight.map Prod.fst).Perm (List.range maxConcurrent) ∧
  (s.emitted ++ s.inFlight.map Prod.snd).Perm s.dispatched ∧
  (s.closed = true → s.loopDone = true ∧ s.inFlight = [])

/-- The initial pool state satisfies the invariant. -/
theorem initPool_inv (maxConcurrent : Nat) (urls : List String) :
    PoolInv maxConcurrent (initPool maxConcurrent urls) := by
  refine ⟨?_, ?_, ?_⟩
  · simp [initPool]
  · simp [initPool]
  · intro hc
    simp [initPool] at hc

/-- Every transition of RunConcurrentGet preserves the invariant. -/
theorem poolStep_inv (maxConcurrent : Nat) (s s' : PoolState)
    (h : PoolStep s s') (hi : PoolInv maxConcurrent s) : PoolInv maxConcurrent s' := by
  obtain ⟨h1, h2, h3⟩ := hi
  cases h with
  | fireQuit =>
    exact ⟨h1, h2, fun hc => h3 hc⟩
  | dispatch u rest c cs hld hp ha =>
    refine ⟨?_, ?_, ?_⟩
    · have h1' := h1
      rw [ha] at h1'
      exact List.perm_middle.trans h1'
    · exact List.perm_middle.trans ((h2.cons u).trans (List.perm_append_singleton u _).symm)
    · intro hc
      have hld2 := (h3 hc).1
      rw [hld] at hld2
      exact absurd hld2 Bool.false_ne_true
  | observeQuit hld hq =>
    exact ⟨h1, h2, fun hc => ⟨rfl, (h3 hc).2⟩⟩
  | exhaust hld hp =>
    exact ⟨h1, h2, fun hc => ⟨rfl, (h3 hc).2⟩⟩
  | complete c u l1 l2 hin =>
    refine ⟨?_, ?_, ?_⟩
    · show ((s.available ++ [c]) ++ (l1 ++ l2).map Prod.fst).Perm (List.range maxConcurrent)
      have h1' := h1
      rw [hin] at h1'
      simp only [List.map_append, List.map_cons] at h1'
      have e1 : (s.available ++ [c]) ++ (l1 ++ l2).map Prod.fst =
          s.available ++ (c :: (l1.map Prod.fst ++ l2.map Prod.fst)) := by
        simp [List.append_assoc]
      rw [e1]
      exact (List.perm_middle.symm.append_left s.available).trans h1'
    · show ((s.emitted ++ [u]) ++ (l1 ++ l2).map Prod.snd).Perm s.dispatched
      have h2' := h2
      rw [hin] at h2'
      simp only [List.map_append, List.map_cons] at h2'
      have e2 : (s.emitted ++ [u]) ++ (l1 ++ l2).map Prod.snd =
          s.emitted ++ (u :: (l1.map Prod.snd ++ l2.map Prod.snd)) := by
        simp [List.append_assoc]
      rw [e2]
      exact (List.perm_middle.symm.append_left s.emitted).trans h2'
    · intro hc
      have hnil := (h3 hc).2
      rw [hin] at hnil
      simp at hnil
  | close hld hin hcl =>
    exact ⟨h1, h2, fun _ => ⟨hld, hin⟩⟩

/-- Every reachable pool state satisfies the invariant. -/
theorem poolReachable_inv (maxConcurrent : Nat) (urls : List String) (s : PoolState)
    (h : PoolReachable maxConcurrent urls s) : PoolInv maxConcurrent s := by
  induction h with
  | refl => exact initPool_inv maxConcurrent urls
  | tail hab hstep ih => exact poolStep_inv maxConcurrent _ _ hstep ih

/-- Whenever the merge returns a value, its Total, histogram, maximum and
non-200 list have the merged shape, whichever average branch ran. -/
theorem MergeCrawlStats_some_shape (a b m : CrawlStats)
    (h : MergeCrawlStats a b = some m) :
    m.Total = a.Total + b.Total ∧ m.StatusCodes = mergedCodes a b ∧
    m.Max200Time = maxDur a.Max200Time b.Max200Time ∧
    m.Non200Urls = a.Non200Urls ++ b.Non200Urls := by
  unfold MergeCrawlStats at h
  by_cases hbr : (a.Average200Time ≠ 0 ∨ b.Average200Time ≠ 0)
  · simp only [hbr, if_pos] at h
    by_cases hdz : getCount (mergedCodes a b) 200 = 0
    · simp [hdz] at h
    · simp only [hdz, if_neg, if_false, Option.some.injEq] at h
      rw [← h]
      exact ⟨rfl, rfl, rfl, rfl⟩
  · simp only [hbr, if_neg, if_false, Option.some.injEq] at h
    rw [← h]
    exact ⟨rfl, rfl, rfl, rfl⟩

/-- The phase-2 statistics keep the accumulator Average200Time at zero: the
linking-URL rewrite touches only the Non200Urls field. -/
theorem crawlPageLinks_avg (fetch : Bool → String → HTTPResponseM)
    (results : List HTTPResponseM) (config : CrawlConfigM) :
    (crawlPageLinks fetch results config).2.1.Average200Time = 0 := by
  unfold crawlPageLinks
  simp [crawlUrls, foldStats_avg]

/-- The phase-2 statistics satisfy the total-equals-histogram-sum invariant. -/
theorem crawlPageLinks_inv (fetch : Bool → String → HTTPResponseM)
    (results : List HTTPResponseM) (config : CrawlConfigM) :
    (crawlPageLinks fetch results config).2.1.Total =
      sumValues (crawlPageLinks fetch results config).2.1.StatusCodes := by
  unfold crawlPageLinks
  simp [crawlUrls, foldStats_inv]

/-- The pre-finalization pair of AsyncCrawl, when it exists, carries a zero
accumulator average and satisfies the histogram-sum invariant. -/
theorem combinedPre_props (fetch : Bool → String → HTTPResponseM)
    (rw0 : List String → String → List String) (urls0 : List String)
    (config : CrawlConfigM) (p : CrawlStats × Int)
    (h : combinedPre fetch rw0 urls0 config = some p) :
    p.1.Average200Time = 0 ∧ p.1.Total = sumValues p.1.StatusCodes := by
  unfold combinedPre at h
  by_cases hpl : anyLinkFlag config.Links = true
  · simp only [hpl, if_pos] at h
    have hmg := MergeCrawlStats_avg_zero
      (crawlUrls fetch true (rewrittenUrls rw0 urls0 config)).2.1
      (crawlPageLinks fetch (crawlUrls fetch true (rewrittenUrls rw0 urls0 config)).1 config).2.1
      (by simp [crawlUrls, foldStats_avg]) (crawlPageLinks_avg _ _ _)
    rw [hmg] at h
    simp only [Option.map_some', Option.some.injEq] at h
    rw [← h]
    refine ⟨rfl, ?_⟩
    show _ + _ = sumValues (mergedCodes _ _)
    rw [sumValues_mergedCodes]
    have i1 : (crawlUrls fetch true (rewrittenUrls rw0 urls0 config)).2.1.Total =
        sumValues (crawlUrls fetch true (rewrittenUrls rw0 urls0 config)).2.1.StatusCodes := by
      simp [crawlUrls, foldStats_inv]
    have i2 := crawlPageLinks_inv fetch
      (crawlUrls fetch true (rewrittenUrls rw0 urls0 config)).1 config
    rw [i1, i2]
  · simp only [Bool.not_eq_true] at hpl
    simp only [hpl, Bool.false_eq_true, if_neg, if_false, Option.some.injEq] at h
    rw [← h]
    exact ⟨by simp [crawlUrls, foldStats_avg], by simp [crawlUrls, foldStats_inv]⟩

/-- AsyncCrawl never hits the merge division by zero: both phase accumulators
hold a zero average, so the merge branch that divides is never taken. -/
theorem combinedPre_isSome (fetch : Bool → String → HTTPResponseM)
    (rw0 : List String → String → List String) (urls0 : List String)
    (config : CrawlConfigM) :
    (combinedPre fetch rw0 urls0 config).isSome = true := by
  unfold combinedPre
  by_cases hpl : anyLinkFlag config.Links = true
  · simp only [hpl, if_pos]
    have hmg := MergeCrawlStats_avg_zero
      (crawlUrls fetch true (rewrittenUrls rw0 urls0 config)).2.1
      (crawlPageLinks fetch (crawlUrls fetch true (rewrittenUrls rw0 urls0 config)).1 config).2.1
      (by simp [crawlUrls, foldStats_avg]) (crawlPageLinks_avg _ _ _)
    rw [hmg]
    rfl
  · simp only [Bool.not_eq_true] at hpl
    simp [hpl]

/-- The outcome classification of finalizeCrawl reads the finalized
statistics it returns. -/
theorem finalizeCrawl_snd (p : CrawlStats × Int) :
    (finalizeCrawl p).2 =
      (if (finalizeCrawl p).1.Total = 0 then some CrawlError.noURLCrawled
       else if (finalizeCrawl p).1.Total ≠ getCount (finalizeCrawl p).1.StatusCodes 200 then
         some CrawlError.non200Status
       else none) := rfl

/-- C1 (counterexample): both inputs have a zero 200-count, yet the merge
does not return the zero duration — the average branch fires because an
input average is nonzero and Go divides by the zero merged 200-count, a
runtime panic (modelled as none). -/
theorem C1_counterexample :
    MergeCrawlStats ⟨0, [], 1, 0, []⟩ initCrawlStats = none ∧
    getCount (⟨0, [], 1, 0, []⟩ : CrawlStats).StatusCodes 200 = 0 ∧
    getCount initCrawlStats.StatusCodes 200 = 0 ∧
    (MergeCrawlStats ⟨0, [], 1, 0, []⟩ initCrawlStats).map CrawlStats.Average200Time ≠
      some 0 := by
  decide

/-- C1 (amended): for well-formed histograms, whenever the merged 200-count
is nonzero or both input averages are zero, MergeCrawlStats succeeds and its
Average200Time is the weighted average
(a.avg * a.count200 + b.avg * b.count200) tdiv (a.count200 + b.count200) in
exact integer nanoseconds (zero when both counts and both averages are
zero); if an average is nonzero while the combined 200-count is zero, the
code instead divides by zero. -/
theorem mergeCrawlStats_weighted_average (a b : CrawlStats)
    (ha : nodupKeys a.StatusCodes) (hb : nodupKeys b.StatusCodes)
    (h : (a.Average200Time = 0 ∧ b.Average200Time = 0) ∨
      getCount a.StatusCodes 200 + getCount b.StatusCodes 200 ≠ 0) :
    (MergeCrawlStats a b).map CrawlStats.Average200Time =
      some (Int.tdiv
        (a.Average200Time * getCount a.StatusCodes 200 +
          b.Average200Time * getCount b.StatusCodes 200)
        (getCount a.StatusCodes 200 + getCount b.StatusCodes 200)) := by
  have hden : getCount (mergedCodes a b) 200 =
      getCount a.StatusCodes 200 + getCount b.StatusCodes 200 := by
    rw [getCount_mergedCodes, sumKey_eq_getCount _ _ ha, sumKey_eq_getCount _ _ hb]
  by_cases hbr : (a.Average200Time ≠ 0 ∨ b.Average200Time ≠ 0)
  · have hne : getCount a.StatusCodes 200 + getCount b.StatusCodes 200 ≠ 0 := by
      rcases h with ⟨ha0, hb0⟩ | hne
      · rcases hbr with h' | h'
        · exact absurd ha0 h'
        · exact absurd hb0 h'
      · exact hne
    have hdz : ¬ getCount (mergedCodes a b) 200 = 0 := by
      rw [hden]
      exact hne
    have hmm : MergeCrawlStats a b = some ⟨a.Total + b.Total, mergedCodes a b,
        Int.tdiv (a.Average200Time * getCount a.StatusCodes 200 +
          b.Average200Time * getCount b.StatusCodes 200) (getCount (mergedCodes a b) 200),
        maxDur a.Max200Time b.Max200Time, a.Non200Urls ++ b.Non200Urls⟩ := by
      simp only [MergeCrawlStats]
      rw [if_pos hbr, if_neg hdz]
    rw [hmm]
    simp [hden]
  · push_neg at hbr
    obtain ⟨ha0, hb0⟩ := hbr
    simp [MergeCrawlStats, ha0, hb0, Int.zero_tdiv]

/-- C1 (witness): at two concrete statistics with 200-counts 1 and 2 and
averages 4 and 10, the merged average is (4 + 20) tdiv 3 = 8. -/
theorem mergeCrawlStats_weighted_average_witness :
    (MergeCrawlStats ⟨1, [(200, 1)], 4, 7, []⟩ ⟨2, [(200, 2)], 10, 9, []⟩).map
      CrawlStats.Average200Time = some 8 := by
  have h := mergeCrawlStats_weighted_average ⟨1, [(200, 1)], 4, 7, []⟩
    ⟨2, [(200, 2)], 10, 9, []⟩ (by decide) (by decide) (Or.inr (by decide))
  rw [h]
  decide

/-- C2 (counterexample): the empty CrawlStats is not an identity for the
merge on arbitrary statistics: with a nonzero average and a zero 200-count
the merge divides by zero instead of returning the input, and a negative
Max200Time is clamped to zero by the merge. -/
theorem C2_counterexample :
    MergeCrawlStats ⟨0, [], 1, -1, []⟩ initCrawlStats = none ∧
    (MergeCrawlStats ⟨0, [], 0, -1, []⟩ initCrawlStats).map CrawlStats.Max200Time =
      some 0 ∧
    (⟨0, [], 0, -1, []⟩ : CrawlStats).Max200Time = -1 := by
  decide

/-- C2 (amended): MergeCrawlStats is commutative on Total, Max200Time, the
histogram read at any key, and Average200Time (the two orders also diverge
together); and the empty CrawlStats is a right identity on those fields and
on the non-200 list for every input whose histogram is well-formed, whose
Max200Time is nonnegative, and whose average is zero or 200-count nonzero
(otherwise the merge divides by zero or clamps a negative maximum). -/
theorem mergeCrawlStats_comm_identity (a b : CrawlStats) (k : Int) :
    ((MergeCrawlStats a b).map CrawlStats.Total =
        (MergeCrawlStats b a).map CrawlStats.Total ∧
      (MergeCrawlStats a b).map CrawlStats.Max200Time =
        (MergeCrawlStats b a).map CrawlStats.Max200Time ∧
      (MergeCrawlStats a b).map (fun s => getCount s.StatusCodes k) =
        (MergeCrawlStats b a).map (fun s => getCount s.StatusCodes k) ∧
      (MergeCrawlStats a b).map CrawlStats.Average200Time =
        (MergeCrawlStats b a).map CrawlStats.Average200Time) ∧
    (nodupKeys a.StatusCodes → 0 ≤ a.Max200Time →
      (a.Average200Time = 0 ∨ getCount a.StatusCodes 200 ≠ 0) →
      (MergeCrawlStats a initCrawlStats).map CrawlStats.Total = some a.Total ∧
      (MergeCrawlStats a initCrawlStats).map CrawlStats.Max200Time =
        some a.Max200Time ∧
      (MergeCrawlStats a initCrawlStats).map (fun s => getCount s.StatusCodes k) =
        some (getCount a.StatusCodes k) ∧
      (MergeCrawlStats a initCrawlStats).map CrawlStats.Average200Time =
        some a.Average200Time ∧
      (MergeCrawlStats a initCrawlStats).map CrawlStats.Non200Urls =
        some a.Non200Urls) := by
  constructor
  · have hden : getCount (mergedCodes a b) 200 = getCount (mergedCodes b a) 200 := by
      rw [getCount_mergedCodes, getCount_mergedCodes]
      ring
    have hdenk : getCount (mergedCodes a b) k = getCount (mergedCodes b a) k := by
      rw [getCount_mergedCodes, getCount_mergedCodes]
      ring
    by_cases hbr : (a.Average200Time ≠ 0 ∨ b.Average200Time ≠ 0)
    · have hbr2 : (b.Average200Time ≠ 0 ∨ a.Average200Time ≠ 0) := hbr.symm
      by_cases hdz : getCount (mergedCodes a b) 200 = 0
      · have hdz2 : getCount (mergedCodes b a) 200 = 0 := by rw [← hden]; exact hdz
        simp [MergeCrawlStats, hbr, hbr2, hdz, hdz2]
      · have hdz2 : ¬ getCount (mergedCodes b a) 200 = 0 := by rw [← hden]; exact hdz
        simp only [MergeCrawlStats, hbr, hbr2, if_pos, hdz, hdz2, if_neg, if_false,
          Option.map_some']
        refine ⟨by simp [Int.add_comm], by simp [maxDur_comm], by simp [hdenk], ?_⟩
        simp only [Option.some.injEq]
        rw [hden]
        ring_nf
    · push_neg at hbr
      obtain ⟨ha0, hb0⟩ := hbr
      rw [MergeCrawlStats_avg_zero a b ha0 hb0, MergeCrawlStats_avg_zero b a hb0 ha0]
      simp only [Option.map_some', Option.some.injEq]
      exact ⟨by simp [Int.add_comm], by simp [maxDur_comm], by simp [hdenk], by trivial⟩
  · intro hnd hmax havg
    have hgk : getCount (mergedCodes a initCrawlStats) k = getCount a.StatusCodes k := by
      rw [getCount_mergedCodes]
      simp [initCrawlStats, sumKey, sumKey_eq_getCount _ _ hnd]
    by_cases ha0 : a.Average200Time = 0
    · rw [MergeCrawlStats_avg_zero a initCrawlStats ha0 rfl]
      simp only [Option.map_some', Option.some.injEq]
      refine ⟨by simp [initCrawlStats], ?_, by simp [hgk], ha0.symm, by simp [initCrawlStats]⟩
      show maxDur a.Max200Time initCrawlStats.Max200Time = a.Max200Time
      exact maxDur_zero_right a.Max200Time hmax
    · have hg200 : getCount a.StatusCodes 200 ≠ 0 := by
        rcases havg with h' | h'
        · exact absurd h' ha0
        · exact h'
      have hden0 : getCount (mergedCodes a initCrawlStats) 200 = getCount a.StatusCodes 200 := by
        rw [getCount_mergedCodes]
        simp [initCrawlStats, sumKey, sumKey_eq_getCount _ _ hnd]
      have hbr : (a.Average200Time ≠ 0 ∨ initCrawlStats.Average200Time ≠ 0) := Or.inl ha0
      have hdz : ¬ getCount (mergedCodes a initCrawlStats) 200 = 0 := by
        rw [hden0]
        exact hg200
      simp only [MergeCrawlStats, hbr, if_pos, hdz, if_neg, if_false, Option.map_some']
      refine ⟨by simp [initCrawlStats], ?_, by simp [hgk], ?_, by simp [initCrawlStats]⟩
      · exact congrArg some (maxDur_zero_right a.Max200Time hmax)
      · simp only [Option.some.injEq]
        rw [hden0]
        show Int.tdiv (a.Average200Time * getCount a.StatusCodes 200 +
          initCrawlStats.Average200Time * getCount initCrawlStats.StatusCodes 200) _ = _
        simp only [initCrawlStats, getCount, Int.zero_mul, Int.add_zero]
        exact Int.mul_tdiv_cancel a.Average200Time hg200

/-- C2 (witness): at concrete statistics the two merge orders agree on the
four fields, and merging with the empty statistics returns the input
fields. -/
theorem mergeCrawlStats_comm_identity_witness :
    ((MergeCrawlStats ⟨2, [(200, 1), (404, 1)], 6, 3, [⟨ "u", 404, 2, []⟩]⟩
        ⟨1, [(200, 1)], 4, 9, []⟩).map CrawlStats.Total =
      (MergeCrawlStats ⟨1, [(200, 1)], 4, 9, []⟩
        ⟨2, [(200, 1), (404, 1)], 6, 3, [⟨ "u", 404, 2, []⟩]⟩).map CrawlStats.Total) ∧
    (MergeCrawlStats ⟨2, [(200, 1), (404, 1)], 6, 3, [⟨ "u", 404, 2, []⟩]⟩
        initCrawlStats).map CrawlStats.Max200Time = some 3 := by
  have h := mergeCrawlStats_comm_identity ⟨2, [(200, 1), (404, 1)], 6, 3, [⟨ "u", 404, 2, []⟩]⟩
    ⟨1, [(200, 1)], 4, 9, []⟩ 200
  refine ⟨h.1.1, ?_⟩
  have h2 := (h.2 (by decide) (by decide) (Or.inr (by decide))).2.1
  rw [h2]

/-- C3: the total always equals the histogram value sum: it holds for the
statistics crawlUrls folds from any response stream, each populateCrawlStats
step preserves it, and MergeCrawlStats preserves it whenever it returns. -/
theorem crawlStats_total_invariant (rs : List HTTPResponseM)
    (r : HTTPResponseM) (s : CrawlStats) (t : Int) (a b m : CrawlStats)
    (hs : s.Total = sumValues s.StatusCodes)
    (hm : MergeCrawlStats a b = some m)
    (hat : a.Total = sumValues a.StatusCodes)
    (hbt : b.Total = sumValues b.StatusCodes) :
    (foldStats rs).1.Total = sumValues (foldStats rs).1.StatusCodes ∧
    ((populateCrawlStats r s t).1).Total =
      sumValues ((populateCrawlStats r s t).1).StatusCodes ∧
    m.Total = sumValues m.StatusCodes := by
  refine ⟨foldStats_inv rs, populate_inv r s t hs, ?_⟩
  obtain ⟨hT, hC, _, _⟩ := MergeCrawlStats_some_shape a b m hm
  rw [hT, hC, sumValues_mergedCodes, hat, hbt]

/-- C3 (witness): the invariant at a concrete fold, step and merge. -/
theorem crawlStats_total_invariant_witness :
    (foldStats [⟨ "u", 200, true, 5, false, []⟩]).1.Total =
      sumValues (foldStats [⟨ "u", 200, true, 5, false, []⟩]).1.StatusCodes ∧
    ((populateCrawlStats ⟨ "v", 404, true, 2, false, []⟩ ⟨1, [(200, 1)], 0, 5, []⟩ 5).1).Total =
      sumValues ((populateCrawlStats ⟨ "v", 404, true, 2, false, []⟩
        ⟨1, [(200, 1)], 0, 5, []⟩ 5).1).StatusCodes ∧
    (⟨2, [(200, 2)], 0, 5, []⟩ : CrawlStats).Total =
      sumValues (⟨2, [(200, 2)], 0, 5, []⟩ : CrawlStats).StatusCodes := by
  exact crawlStats_total_invariant [⟨ "u", 200, true, 5, false, []⟩]
    ⟨ "v", 404, true, 2, false, []⟩ ⟨1, [(200, 1)], 0, 5, []⟩ 5
    ⟨1, [(200, 1)], 0, 5, []⟩ ⟨1, [(200, 1)], 0, 5, []⟩ ⟨2, [(200, 2)], 0, 5, []⟩
    (by decide) (by decide) (by decide) (by decide)

/-- C5: HTTPGet returns rather than raises: a transport-level failure (nil
response with a transport error) yields StatusCode 0 with the error
populated, and any received HTTP response without a transport error yields
that status code with no error set. -/
theorem httpGet_error_contract (urlStr : String) (createErr : Bool)
    (outcome : DoOutcome) (serverTime : Int) (parseLinks baseURLOk : Bool)
    (extracted : Option (List LinkM)) (c : Int) :
    (createErr = false → outcome.respStatus = none → outcome.doErr = true →
      (HTTPGet urlStr createErr outcome serverTime parseLinks baseURLOk
        extracted).StatusCode = 0 ∧
      (HTTPGet urlStr createErr outcome serverTime parseLinks baseURLOk
        extracted).hasErr = true) ∧
    (createErr = false → outcome.respStatus = some c → outcome.doErr = false →
      (HTTPGet urlStr createErr outcome serverTime parseLinks baseURLOk
        extracted).StatusCode = c ∧
      (HTTPGet urlStr createErr outcome serverTime parseLinks baseURLOk
        extracted).hasErr = false) := by
  constructor
  · intro hc hr he
    simp [HTTPGet, hc, hr, he]
  · intro hc hr he
    by_cases hp : parseLinks = true
    · by_cases hb : baseURLOk = true
      · cases extracted with
        | none => simp [HTTPGet, hc, hr, he, hp, hb]
        | some ls => simp [HTTPGet, hc, hr, he, hp, hb]
      · simp only [Bool.not_eq_true] at hb
        simp [HTTPGet, hc, hr, he, hp, hb]
    · simp only [Bool.not_eq_true] at hp
      simp [HTTPGet, hc, hr, he, hp]

/-- C5 (witness): a concrete transport failure maps to status 0 with an
error, and a concrete 404 response maps to status 404 with no error. -/
theorem httpGet_error_contract_witness :
    ((HTTPGet "u" false ⟨none, true⟩ 0 false true none).StatusCode = 0 ∧
      (HTTPGet "u" false ⟨none, true⟩ 0 false true none).hasErr = true) ∧
    ((HTTPGet "v" false ⟨some 404, false⟩ 3 false true none).StatusCode = 404 ∧
      (HTTPGet "v" false ⟨some 404, false⟩ 3 false true none).hasErr = false) := by
  constructor
  · exact (httpGet_error_contract "u" false ⟨none, true⟩ 0 false true none 0).1 rfl rfl rfl
  · exact (httpGet_error_contract "v" false ⟨some 404, false⟩ 3 false true none 404).2 rfl rfl rfl

/-- C4: AsyncCrawl classifies its outcome from the final statistics: total 0
gives the nothing-crawled error, a total different from the 200-count gives
the degraded error, a total equal to a nonzero 200-count gives no error, and
the statistics are returned alongside the error in every case; an empty seed
list with link-following off gives total 0 and the nothing-crawled error. -/
theorem asyncCrawl_outcome (fetch : Bool → String → HTTPResponseM)
    (rw0 : List String → String → List String) (urls0 : List String)
    (config : CrawlConfigM) (stats : CrawlStats) (err : Option CrawlError)
    (h : AsyncCrawl fetch rw0 urls0 config = some (stats, err)) :
    (stats.Total = 0 → err = some CrawlError.noURLCrawled) ∧
    (stats.Total ≠ 0 → stats.Total ≠ getCount stats.StatusCodes 200 →
      err = some CrawlError.non200Status) ∧
    (stats.Total ≠ 0 → stats.Total = getCount stats.StatusCodes 200 → err = none) ∧
    (urls0 = [] → anyLinkFlag config.Links = false → rw0 [] config.Host = [] →
      stats.Total = 0 ∧ err = some CrawlError.noURLCrawled) := by
  unfold AsyncCrawl at h
  rw [Option.map_eq_some'] at h
  obtain ⟨p, hp, hfe⟩ := h
  have hstats : stats = (finalizeCrawl p).1 := by rw [hfe]
  have herr : err = (finalizeCrawl p).2 := by rw [hfe]
  subst hstats
  subst herr
  have hcls := finalizeCrawl_snd p
  refine ⟨?_, ?_, ?_, ?_⟩
  · intro h0
    rw [hcls, if_pos h0]
  · intro h0 hne
    rw [hcls, if_neg h0, if_pos hne]
  · intro h0 heq
    rw [hcls, if_neg h0, if_neg (not_not_intro heq)]
  · intro hu hpl hrw
    have hurls : rewrittenUrls rw0 urls0 config = [] := by
      unfold rewrittenUrls
      by_cases hh : config.Host ≠ ""
      · rw [if_pos hh, hu, hrw]
      · rw [if_neg hh, hu]
    have hcp : combinedPre fetch rw0 urls0 config = some (initCrawlStats, 0) := by
      simp [combinedPre, hurls, hpl, crawlUrls, foldStats, buildResults]
    rw [hcp] at hp
    have hpe : p = (initCrawlStats, 0) := by
      injection hp with h2
      exact h2.symm
    subst hpe
    exact ⟨by decide, by decide⟩

/-- C4 (witness): one URL answering 404 with link-following off: the theorem
instantiated at the concretely evaluated crawl outcome. -/
theorem asyncCrawl_outcome_witness :
    ((⟨1, [(404, 1)], 0, 0, [⟨ "a", 404, 2, []⟩]⟩ : CrawlStats).Total = 0 →
      some CrawlError.non200Status = some CrawlError.noURLCrawled) ∧
    ((⟨1, [(404, 1)], 0, 0, [⟨ "a", 404, 2, []⟩]⟩ : CrawlStats).Total ≠ 0 →
      (⟨1, [(404, 1)], 0, 0, [⟨ "a", 404, 2, []⟩]⟩ : CrawlStats).Total ≠
        getCount (⟨1, [(404, 1)], 0, 0, [⟨ "a", 404, 2, []⟩]⟩ : CrawlStats).StatusCodes 200 →
      some CrawlError.non200Status = some CrawlError.non200Status) ∧
    ((⟨1, [(404, 1)], 0, 0, [⟨ "a", 404, 2, []⟩]⟩ : CrawlStats).Total ≠ 0 →
      (⟨1, [(404, 1)], 0, 0, [⟨ "a", 404, 2, []⟩]⟩ : CrawlStats).Total =
        getCount (⟨1, [(404, 1)], 0, 0, [⟨ "a", 404, 2, []⟩]⟩ : CrawlStats).StatusCodes 200 →
      some CrawlError.non200Status = none) ∧
    ([ "a" ] = ([] : List String) →
      anyLinkFlag (⟨1, "", ⟨false, false, false⟩⟩ : CrawlConfigM).Links = false →
      (fun us _ => us) ([] : List String) (⟨1, "", ⟨false, false, false⟩⟩ : CrawlConfigM).Host = [] →
      (⟨1, [(404, 1)], 0, 0, [⟨ "a", 404, 2, []⟩]⟩ : CrawlStats).Total = 0 ∧
      some CrawlError.non200Status = some CrawlError.noURLCrawled) :=
  asyncCrawl_outcome (fun _ u => ⟨u, 404, true, 2, false, []⟩) (fun us _ => us)
    [ "a" ] ⟨1, "", ⟨false, false, false⟩⟩
    ⟨1, [(404, 1)], 0, 0, [⟨ "a", 404, 2, []⟩]⟩ (some CrawlError.non200Status) (by decide)

/-- C9: with all three link-policy flags false, AsyncCrawl is exactly the
phase-1 crawl finalized — no frontier crawl and no merge contribute — and
its result depends only on the fetch outcomes of the (rewritten) seed URLs
with link extraction off. -/
theorem asyncCrawl_phase1_only (fetch fetch' : Bool → String → HTTPResponseM)
    (rw0 : List String → String → List String) (urls0 : List String)
    (config : CrawlConfigM)
    (h1 : config.Links.CrawlExternalLinks = false)
    (h2 : config.Links.CrawlHyperlinks = false)
    (h3 : config.Links.CrawlImages = false) :
    AsyncCrawl fetch rw0 urls0 config =
      some (finalizeCrawl (foldStats
        ((rewrittenUrls rw0 urls0 config).map (fetch false)))) ∧
    ((∀ u, u ∈ rewrittenUrls rw0 urls0 config → fetch false u = fetch' false u) →
      AsyncCrawl fetch rw0 urls0 config = AsyncCrawl fetch' rw0 urls0 config) := by
  have hpl : anyLinkFlag config.Links = false := by
    simp [anyLinkFlag, h1, h2, h3]
  have key : ∀ g : Bool → String → HTTPResponseM,
      AsyncCrawl g rw0 urls0 config =
        some (finalizeCrawl (foldStats
          ((rewrittenUrls rw0 urls0 config).map (g false)))) := by
    intro g
    simp [AsyncCrawl, combinedPre, hpl, crawlUrls]
  refine ⟨key fetch, fun hag => ?_⟩
  rw [key fetch, key fetch']
  have hmaps : (rewrittenUrls rw0 urls0 config).map (fetch false) =
      (rewrittenUrls rw0 urls0 config).map (fetch' false) :=
    List.map_congr_left hag
  rw [hmaps]

/-- C9 (witness): a concrete flags-off crawl equals its finalized phase-1
fold, with hypotheses discharged at the concrete configuration. -/
theorem asyncCrawl_phase1_only_witness :
    AsyncCrawl (fun _ u => ⟨u, 200, true, 5, false, []⟩) (fun us _ => us)
      [ "a" ] ⟨2, "", ⟨false, false, false⟩⟩ =
      some (finalizeCrawl (foldStats
        ((rewrittenUrls (fun us _ => us) [ "a" ] ⟨2, "", ⟨false, false, false⟩⟩).map
          ((fun (_ : Bool) u => (⟨u, 200, true, 5, false, []⟩ : HTTPResponseM)) false)))) :=
  (asyncCrawl_phase1_only (fun _ u => ⟨u, 200, true, 5, false, []⟩)
    (fun _ u => ⟨u, 200, true, 5, false, []⟩) (fun us _ => us)
    [ "a" ] ⟨2, "", ⟨false, false, false⟩⟩ rfl rfl rfl).1

/-- C10: the accumulator Average200Time is never written during
accumulation — it stays zero through every fold of populateCrawlStats and is
still zero on the merged pre-finalization statistics — and the average
AsyncCrawl exposes is set only at finalization, as the combined external
200-latency sum tdiv the merged 200-count (zero when that count is not
positive). -/
theorem avg200_written_only_at_finalize (rs : List HTTPResponseM)
    (fetch : Bool → String → HTTPResponseM)
    (rw0 : List String → String → List String) (urls0 : List String)
    (config : CrawlConfigM) (p : CrawlStats × Int)
    (h : combinedPre fetch rw0 urls0 config = some p) :
    (foldStats rs).1.Average200Time = 0 ∧
    p.1.Average200Time = 0 ∧
    (AsyncCrawl fetch rw0 urls0 config).map (fun q => q.1.Average200Time) =
      some (if 0 < getCount p.1.StatusCodes 200
        then Int.tdiv p.2 (getCount p.1.StatusCodes 200) else 0) := by
  have hpr := combinedPre_props fetch rw0 urls0 config p h
  refine ⟨foldStats_avg rs, hpr.1, ?_⟩
  unfold AsyncCrawl
  rw [h, Option.map_some', Option.map_some']
  by_cases h2 : 0 < getCount p.1.StatusCodes 200
  · simp [finalizeCrawl, h2]
  · simp [finalizeCrawl, h2, hpr.1]

/-- C10 (witness): at a concrete one-URL 200 crawl the pre-finalization
average is zero and the exposed average is the sum 5 divided by count 1. -/
theorem avg200_written_only_at_finalize_witness :
    (foldStats []).1.Average200Time = 0 ∧
    ((⟨1, [(200, 1)], 0, 5, []⟩ : CrawlStats), (5 : Int)).1.Average200Time = 0 ∧
    (AsyncCrawl (fun _ u => ⟨u, 200, true, 5, false, []⟩) (fun us _ => us)
      [ "a" ] ⟨1, "", ⟨false, false, false⟩⟩).map (fun q => q.1.Average200Time) =
      some (if 0 < getCount
          ((⟨1, [(200, 1)], 0, 5, []⟩ : CrawlStats), (5 : Int)).1.StatusCodes 200
        then Int.tdiv ((⟨1, [(200, 1)], 0, 5, []⟩ : CrawlStats), (5 : Int)).2
          (getCount ((⟨1, [(200, 1)], 0, 5, []⟩ : CrawlStats), (5 : Int)).1.StatusCodes 200)
        else 0) :=
  avg200_written_only_at_finalize [] (fun _ u => ⟨u, 200, true, 5, false, []⟩)
    (fun us _ => us) [ "a" ] ⟨1, "", ⟨false, false, false⟩⟩
    ((⟨1, [(200, 1)], 0, 5, []⟩ : CrawlStats), (5 : Int)) (by decide)

/-- C6: a URL enters the phase-2 frontier only through a link that survives
the policy filter and whose target is not already a key of the phase-1
result map, and each frontier URL maps to exactly the list of source URLs
that referenced it that way. -/
theorem frontier_sound (results : List HTTPResponseM) (cfg : CrawlPageLinksConfig)
    (t : String) (hmem : t ∈ (buildFrontier results cfg).2) :
    t ∉ results.map (fun r => r.URL) ∧
    (∃ r, r ∈ results ∧ ∃ l, l ∈ r.Links ∧ linkSkipped cfg l = false ∧
      l.TargetURL = t) ∧
    (buildFrontier results cfg).1 t =
      refs results (results.map (fun r => r.URL)) cfg t := by
  have hchar := buildFrontier_map results cfg t
  have hne : (buildFrontier results cfg).1 t ≠ [] :=
    (buildFrontier_mem results cfg t).mp hmem
  rw [hchar] at hne
  have hex : ∃ r, r ∈ results ∧
      refsIn (results.map (fun r => r.URL)) cfg t r ≠ [] := by
    by_contra hc
    push_neg at hc
    apply hne
    unfold refs
    apply List.flatten_eq_nil_iff.mpr
    intro x hx
    rw [List.mem_map] at hx
    obtain ⟨r, hr, hxe⟩ := hx
    rw [← hxe]
    exact hc r hr
  obtain ⟨r, hr, hrne⟩ := hex
  have hl : ∃ l, l ∈ r.Links ∧
      linkMatches (results.map (fun r => r.URL)) cfg t l = true := by
    by_contra hc
    push_neg at hc
    apply hrne
    unfold refsIn
    rw [List.filter_eq_nil_iff.mpr]
    · rfl
    · intro a ha
      simp [hc a ha]
  obtain ⟨l, hlmem, hlm⟩ := hl
  unfold linkMatches at hlm
  rw [Bool.and_eq_true, Bool.and_eq_true] at hlm
  obtain ⟨⟨hsk, hct⟩, heqb⟩ := hlm
  have hsk2 : linkSkipped cfg l = false := by simpa using hsk
  have heq : l.TargetURL = t := by simpa using heqb
  refine ⟨?_, ⟨r, hr, l, hlmem, hsk2, heq⟩, hchar⟩
  rw [← heq]
  have hnotin : l.TargetURL ∉ results.map (fun r => r.URL) := by simpa using hct
  exact hnotin

/-- C6 (witness): a page at URL a with one internal hyperlink to b under an
all-follow policy puts b in the frontier; the theorem instantiated there. -/
theorem frontier_sound_witness :
    "b" ∉ ([⟨ "a", 200, true, 0, false, [⟨ "b", LinkKind.hyperlink, false⟩]⟩] :
      List HTTPResponseM).map (fun r => r.URL) ∧
    (∃ r, r ∈ ([⟨ "a", 200, true, 0, false, [⟨ "b", LinkKind.hyperlink, false⟩]⟩] :
      List HTTPResponseM) ∧ ∃ l, l ∈ r.Links ∧
      linkSkipped ⟨true, true, true⟩ l = false ∧ l.TargetURL = "b") ∧
    (buildFrontier [⟨ "a", 200, true, 0, false, [⟨ "b", LinkKind.hyperlink, false⟩]⟩]
      ⟨true, true, true⟩).1 "b" =
      refs [⟨ "a", 200, true, 0, false, [⟨ "b", LinkKind.hyperlink, false⟩]⟩]
        (([⟨ "a", 200, true, 0, false, [⟨ "b", LinkKind.hyperlink, false⟩]⟩] :
          List HTTPResponseM).map (fun r => r.URL)) ⟨true, true, true⟩ "b" :=
  frontier_sound [⟨ "a", 200, true, 0, false, [⟨ "b", LinkKind.hyperlink, false⟩]⟩]
    ⟨true, true, true⟩ "b" (by decide)

/-- C7 (counterexample): the cancellation signal fires while one URL is
still pending, yet a next legal transition of the pool dispatches it: the Go
select chooses among ready cases with no priority, so a quit that has fired
need not stop dispatch until the quit case is actually taken. -/
theorem C7_counterexample :
    PoolStep (initPool 1 [ "a" ])
      ⟨[ "a" ], [0], [], [], [], true, false, false⟩ ∧
    (⟨[ "a" ], [0], [], [], [], true, false, false⟩ : PoolState).quitFired = true ∧
    (⟨[ "a" ], [0], [], [], [], true, false, false⟩ : PoolState).pending = [ "a" ] ∧
    PoolStep ⟨[ "a" ], [0], [], [], [], true, false, false⟩
      ⟨[], [], [(0, "a")], [], [ "a" ], true, false, false⟩ ∧
    (⟨[], [], [(0, "a")], [], [ "a" ], true, false, false⟩ : PoolState).dispatched =
      [ "a" ] := by
  refine ⟨?_, rfl, rfl, ?_, rfl⟩
  · exact PoolStep.fireQuit (initPool 1 [ "a" ])
  · exact PoolStep.dispatch ⟨[ "a" ], [0], [], [], [], true, false, false⟩
      "a" [] 0 [] rfl rfl rfl

/-- C7 (amended): once the pool has observed the cancellation (its dispatch
loop has exited), no transition dispatches a further URL; and when the
result stream is closed, every dispatched fetch has completed and the
emitted results are exactly the dispatched URLs, none dropped or
duplicated.  Between the signal firing and the select taking the quit case,
further URLs may still be dispatched (see the counterexample). -/
theorem runConcurrentGet_drain (maxConcurrent : Nat) (urls : List String)
    (s s' : PoolState) (h : PoolReachable maxConcurrent urls s) :
    (s.loopDone = true → PoolStep s s' → s'.dispatched = s.dispatched) ∧
    (s.closed = true → s.emitted.Perm s.dispatched ∧ s.inFlight = []) := by
  obtain ⟨h1, h2, h3⟩ := poolReachable_inv maxConcurrent urls s h
  constructor
  · intro hld hstep
    cases hstep with
    | fireQuit => rfl
    | dispatch u rest c cs hld2 hp ha =>
      rw [hld] at hld2
      exact Bool.noConfusion hld2
    | observeQuit hld2 hq => rfl
    | exhaust hld2 hp => rfl
    | complete c u l1 l2 hin => rfl
    | close hld2 hin hcl => rfl
  · intro hc
    obtain ⟨hld, hnil⟩ := h3 hc
    refine ⟨?_, hnil⟩
    have h2' := h2
    rw [hnil] at h2'
    simpa using h2'

/-- C7 (witness): the pool that exhausts an empty URL list and closes:
reaching the closed state, the emitted results are a permutation of the
dispatched URLs and nothing is in flight, and from the loop-done state no
step changes the dispatched list. -/
theorem runConcurrentGet_drain_witness :
    ((⟨[], [0], [], [], [], false, true, true⟩ : PoolState).loopDone = true →
      PoolStep ⟨[], [0], [], [], [], false, true, true⟩
        ⟨[], [0], [], [], [], true, true, true⟩ →
      (⟨[], [0], [], [], [], true, true, true⟩ : PoolState).dispatched =
        (⟨[], [0], [], [], [], false, true, true⟩ : PoolState).dispatched) ∧
    ((⟨[], [0], [], [], [], false, true, true⟩ : PoolState).closed = true →
      (⟨[], [0], [], [], [], false, true, true⟩ : PoolState).emitted.Perm
        (⟨[], [0], [], [], [], false, true, true⟩ : PoolState).dispatched ∧
      (⟨[], [0], [], [], [], false, true, true⟩ : PoolState).inFlight = []) :=
  runConcurrentGet_drain 1 [] ⟨[], [0], [], [], [], false, true, true⟩
    ⟨[], [0], [], [], [], true, true, true⟩
    (Relation.ReflTransGen.tail
      (Relation.ReflTransGen.tail Relation.ReflTransGen.refl
        (PoolStep.exhaust (initPool 1 []) rfl rfl))
      (PoolStep.close ⟨[], [0], [], [], [], false, true, false⟩ rfl rfl rfl))

/-- C8: in every reachable state of the worker pool at most maxConcurrent
fetches are in flight, and no two in-flight fetches hold the same pooled
client: the clients ready plus the clients held are a permutation of the
maxConcurrent clients created at start. -/
theorem runConcurrentGet_bounded (maxConcurrent : Nat) (urls : List String)
    (s : PoolState) (hpos : 1 ≤ maxConcurrent)
    (h : PoolReachable maxConcurrent urls s) :
    s.inFlight.length ≤ maxConcurrent ∧ (s.inFlight.map Prod.fst).Nodup := by
  obtain ⟨h1, h2, h3⟩ := poolReachable_inv maxConcurrent urls s h
  constructor
  · have hlen := h1.length_eq
    rw [List.length_append, List.length_map, List.length_range] at hlen
    omega
  · have hnd : (s.available ++ s.inFlight.map Prod.fst).Nodup :=
      h1.nodup_iff.mpr (List.nodup_range maxConcurrent)
    exact hnd.of_append_right

/-- C8 (witness): after dispatching one URL with concurrency limit 1, one
fetch is in flight and the held client ids are distinct. -/
theorem runConcurrentGet_bounded_witness :
    (⟨[], [], [(0, "a")], [], [ "a" ], false, false, false⟩ : PoolState).inFlight.length ≤ 1 ∧
    ((⟨[], [], [(0, "a")], [], [ "a" ], false, false, false⟩ : PoolState).inFlight.map
      Prod.fst).Nodup :=
  runConcurrentGet_bounded 1 [ "a" ]
    ⟨[], [], [(0, "a")], [], [ "a" ], false, false, false⟩ (by decide)
    (Relation.ReflTransGen.tail Relation.ReflTransGen.refl
      (PoolStep.dispatch (initPool 1 [ "a" ]) "a" [] 0 [] rfl rfl rfl))

example : getCount (bump (bump [] 200 1) 404 1) 200 = 1 := by decide

example :
    MergeCrawlStats ⟨1, [(200, 1)], 4, 7, []⟩ ⟨2, [(200, 2)], 10, 9, []⟩ =
      some ⟨3, [(200, 3)], 8, 9, []⟩ := by decide

example : MergeCrawlStats ⟨0, [], 1, 0, []⟩ initCrawlStats = none := by decide

example :
    AsyncCrawl (fun _ _ => ⟨ "u", 200, true, 5, false, []⟩) (fun us _ => us)
      [ "u" ] ⟨1, "", ⟨false, false, false⟩⟩ =
      some (⟨1, [(200, 1)], 5, 5, []⟩, none) := by decide

example :
    AsyncCrawl (fun _ _ => ⟨ "u", 200, true, 5, false, []⟩) (fun us _ => us)
      [] ⟨1, "", ⟨false, false, false⟩⟩ =
      some (⟨0, [], 0, 0, []⟩, some CrawlError.noURLCrawled) := by decide
